import Mathlib

/-!
Shallow embedding of `Gate_trading_bot.py` (Gate.io spot trading bot).

Python `Decimal` values are modelled as exact rationals (`ℚ`); the
operations the bot performs on them (add, subtract, multiply, divide,
compare, `quantize` with `ROUND_DOWN`) are modelled exactly.  Tickers and
currency-pair keys are lists of characters; `str.replace('/', '_')` is a
character-wise map and `str.upper()` is `Char.toUpper` character-wise
(the bot only ever handles ASCII ticker symbols).  The global
`open_positions` dict is a function from keys to `Option Position`.
Network effects (balances, market rules, order-status polls, API errors)
are supplied by explicit environment records.
-/

namespace GateBot

/-- Configuration constants, `Gate_trading_bot.py` lines 23-27. -/
def INITIAL_STOP_LOSS_PCT : ℚ := 1 / 100

/-- Breakeven trigger threshold (percent), line 24. -/
def BREAKEVEN_TRIGGER_PCT : ℚ := 2

/-- Trailing take-profit activation threshold (percent), line 25. -/
def TRAILING_PROFIT_ACTIVATION_PCT : ℚ := 4

/-- Trailing take-profit exit threshold (percent of retracement), line 26. -/
def TRAILING_PROFIT_EXIT_PCT : ℚ := 2

/-- Visual take-profit target factor, line 27 (display only). -/
def TAKE_PROFIT_TARGET_PCT : ℚ := 104 / 100

/-- A position record, as built at lines 229-239 of the source. -/
structure Position where
  currency_pair : List Char
  entry_price : ℚ
  amount : ℚ
  initial_stop_loss_price : ℚ
  current_stop_loss_price : ℚ
  status : String
  peak_price : ℚ
  trail_started : Bool
  adjusted_to_breakeven : Bool
deriving DecidableEq, Repr

/-- Market metadata returned by `get_minimum_order_size` (lines 115-129). -/
structure MarketRules where
  min_base_amount : ℚ
  min_quote_amount : ℚ
  amount_precision : ℕ
  price_precision : ℕ
deriving DecidableEq, Repr

/-- The fields of a `get_order` response that the bot reads
(lines 205-220): `status`, `avg_deal_price`, `filled_amount`. -/
structure OrderStatus where
  status : String
  avg_deal_price : ℚ
  filled_amount : ℚ
deriving DecidableEq, Repr

/-- The global `open_positions` dict (line 66), keyed by currency pair. -/
def Store : Type := List Char → Option Position

/-- The empty store. -/
def emptyStore : Store := fun _ => none

/-- `open_positions[k] = v` (dict insert / overwrite). -/
def Store.insert (s : Store) (k : List Char) (v : Position) : Store :=
  fun k2 => if k2 = k then some v else s k2

/-- `del open_positions[k]` (dict delete). -/
def Store.erase (s : Store) (k : List Char) : Store :=
  fun k2 => if k2 = k then none else s k2

/-- Truncation of a rational toward zero to an integer, the rounding mode
of `Decimal.quantize(..., rounding=ROUND_DOWN)`. -/
def truncInt (x : ℚ) : ℤ := if 0 ≤ x then ⌊x⌋ else ⌈x⌉

/-- Python `Decimal.quantize` at exponent `-p` with `ROUND_DOWN`: truncate
toward zero at `p` decimal places (lines 174-175 and 311-312). -/
def quantizeDown (q : ℚ) (p : ℕ) : ℚ := (truncInt (q * 10 ^ p) : ℚ) / 10 ^ p

/-- `ticker.replace('/', '_')` as a character-wise map (lines 144, 267). -/
def replSlash (t : List Char) : List Char :=
  t.map (fun c => if c = '/' then '_' else c)

/-- `str.upper()` as a character-wise map (line 144). -/
def upperChars (t : List Char) : List Char := t.map Char.toUpper

/-- The position record built by `buy` at lines 229-239: stop loss at
`entry_price * (1 - INITIAL_STOP_LOSS_PCT)` (line 224), peak price
initialized to the entry price, both flags false, status `"open"`. -/
def buildPosition (currency_pair : List Char) (entry_price filled_amount : ℚ) :
    Position :=
  { currency_pair := currency_pair
    entry_price := entry_price
    amount := filled_amount
    initial_stop_loss_price := entry_price * (1 - INITIAL_STOP_LOSS_PCT)
    current_stop_loss_price := entry_price * (1 - INITIAL_STOP_LOSS_PCT)
    status := "open"
    peak_price := entry_price
    trail_started := false
    adjusted_to_breakeven := false }

/-- The fill-confirmation poll loop of `buy` (lines 200-212): starting at
attempt index `i` with `fuel` attempts remaining, call `get_order`
(read `statuses i`); stop as soon as a poll reports status `"closed"`,
returning the successful order details together with the total number of
polls made.  `none` means the retry budget was exhausted. -/
def pollOrderAux (statuses : ℕ → OrderStatus) : ℕ → ℕ → Option (OrderStatus × ℕ)
  | _, 0 => none
  | i, fuel + 1 =>
    let d := statuses i
    if d.status = "closed" then some (d, i + 1)
    else pollOrderAux statuses (i + 1) fuel

/-- Environment for one `buy` call: the live USDT balance, the market
rules for the pair, and the sequence of `get_order` responses the
exchange returns to the successive polls. -/
structure BuyEnv where
  usdt_balance : ℚ
  rules : MarketRules
  order_statuses : ℕ → OrderStatus

/-- Outcome of a `buy` call, following the return paths of lines 148-248. -/
inductive BuyOutcome where
  | insufficientBalance
  | invalidPrice
  | belowMinQuote
  | zeroTotal
  | notFilledInTime
  | filled (details : OrderStatus) (pos : Position)
deriving DecidableEq, Repr

/-- The observable effects of one `buy` call: its outcome, whether a
market buy order was submitted to the exchange, how many `get_order`
polls were made, how many `time.sleep(1)` unit delays were taken, whether
a monitoring thread was spawned, and the resulting `open_positions`. -/
structure BuyResult where
  outcome : BuyOutcome
  orderSubmitted : Bool
  pollCount : ℕ
  sleepUnits : ℕ
  monitorSpawned : Bool
  store : Store

/-- `buy(ticker, price)` (lines 138-248).  The key is the ticker with
`/` replaced by `_`, uppercased (line 144).  Checks in source order:
USDT balance `≤ 0` (line 148), invalid price (line 153), balance below
the minimum quote amount (line 163), total `≤ 0` (line 169).  Then the
spend is truncated to the price precision (lines 174-175), the market
buy is submitted (line 196) and polled up to 5 times with a 1-unit sleep
after each unsuccessful poll (lines 200-212).  On timeout the buy fails
(lines 214-216); on fill the position is built from the reported
`avg_deal_price` / `filled_amount` (lines 219-239), stored (line 242,
overwriting any previous entry) and a monitor thread is spawned
(lines 245-246). -/
def buy (ticker : List Char) (price : Option ℚ) (env : BuyEnv) (store : Store) :
    BuyResult :=
  let currency_pair := upperChars (replSlash ticker)
  let usdt_balance := env.usdt_balance
  if usdt_balance ≤ 0 then
    ⟨.insufficientBalance, false, 0, 0, false, store⟩
  else
    match price with
    | none => ⟨.invalidPrice, false, 0, 0, false, store⟩
    | some pr =>
      if pr ≤ 0 then ⟨.invalidPrice, false, 0, 0, false, store⟩
      else
        let total := usdt_balance
        if total < env.rules.min_quote_amount then
          ⟨.belowMinQuote, false, 0, 0, false, store⟩
        else if total ≤ 0 then
          ⟨.zeroTotal, false, 0, 0, false, store⟩
        else
          match pollOrderAux env.order_statuses 0 5 with
          | some (details, n) =>
            let position :=
              buildPosition currency_pair details.avg_deal_price
                details.filled_amount
            ⟨.filled details position, true, n, n - 1, true,
              store.insert currency_pair position⟩
          | none =>
            ⟨.notFilledInTime, true, 5, 5, false, store⟩

/-- Environment for a sell: the market rules for the pair, the live
available base-asset balance, and whether `create_order` raises an API
error (which `execute_market_sell` catches and logs, lines 335-338). -/
structure SellEnv where
  rules : MarketRules
  base_balance : ℚ
  apiError : Bool

/-- What `execute_market_sell` did: submitted a market sell order for a
given amount, aborted because the balance check failed (the bare
`return` at line 322), or had its order raise an API error which was caught and
swallowed (lines 335-338). -/
inductive SellSubmit where
  | submitted (amount : ℚ)
  | abortedInsufficient
  | apiError
deriving DecidableEq, Repr

/-- `execute_market_sell(currency_pair, amount)` (lines 306-338): truncate
the amount to the amount precision of the pair (lines 311-312); if the live
balance is below the truncated amount, clamp down to the balance when the
balance is at least `amount - amount_decimal` (the truncation residue),
otherwise abort without submitting (lines 316-322); then submit the
market sell (lines 325-332), swallowing any exception. -/
def execute_market_sell (env : SellEnv) (amount : ℚ) : SellSubmit :=
  let amount_decimal := quantizeDown amount env.rules.amount_precision
  let current_balance := env.base_balance
  if current_balance < amount_decimal then
    if amount - amount_decimal ≤ current_balance then
      if env.apiError then .apiError else .submitted current_balance
    else
      .abortedInsufficient
  else
    if env.apiError then .apiError else .submitted amount_decimal

/-- Outcome of the webhook `sell` handler (lines 261-300). -/
inductive SellOutcome where
  | noOpenPosition
  | ok (submit : SellSubmit)
deriving DecidableEq, Repr

/-- `sell(ticker, price)` (lines 261-283).  The lookup key is the ticker
with `/` replaced by `_` — NOT uppercased (line 267, unlike line 144).
If no position is stored under that key the handler returns the
no-open-position error (line 272).  Otherwise it runs
`execute_market_sell` for the stored amount and then unconditionally
removes the position from the store (lines 275-281), whatever the sell
attempt did. -/
def sell (ticker : List Char) (env : SellEnv) (store : Store) :
    SellOutcome × Store :=
  let currency_pair := replSlash ticker
  match store currency_pair with
  | none => (.noOpenPosition, store)
  | some position =>
    let r := execute_market_sell env position.amount
    (.ok r, store.erase currency_pair)

/-- Which exit branch of the monitor loop fired. -/
inductive ExitKind where
  | stopLoss
  | trailingExit
deriving DecidableEq, Repr

/-- One iteration of the `monitor_position` loop body (lines 362-412)
at an observed price `current_price`: update the peak price (lines
369-370), compute the profit percentage (line 373), then in order:
stop-loss check (lines 378-384), breakeven adjustment (lines 389-392),
trailing activation (lines 397-399), trailing exit (lines 404-412).
Returns the updated position and the exit branch that fired, if any. -/
def monitorStep (p : Position) (current_price : ℚ) : Position × Option ExitKind :=
  let p1 := if p.peak_price < current_price
    then { p with peak_price := current_price } else p
  let price_change := (current_price - p1.entry_price) / p1.entry_price * 100
  if current_price ≤ p1.current_stop_loss_price then
    ({ p1 with status := "closed" }, some .stopLoss)
  else
    let p2 :=
      if p1.adjusted_to_breakeven = false ∧ BREAKEVEN_TRIGGER_PCT ≤ price_change
      then { p1 with current_stop_loss_price := p1.entry_price,
                     adjusted_to_breakeven := true }
      else p1
    let p3 :=
      if p2.trail_started = false ∧ TRAILING_PROFIT_ACTIVATION_PCT ≤ price_change
      then { p2 with trail_started := true }
      else p2
    if p3.trail_started = true then
      let retracement := (p3.peak_price - current_price) / p3.peak_price * 100
      if TRAILING_PROFIT_EXIT_PCT ≤ retracement then
        ({ p3 with status := "closed" }, some .trailingExit)
      else (p3, none)
    else (p3, none)

/-- The `monitor_position` loop (lines 362-412) run over a finite list of
observed prices: each iteration first re-checks `status == "open"`
(line 362), then runs `monitorStep`; the loop breaks as soon as an exit
branch fires (lines 384, 412). -/
def monitorRun (p : Position) : List ℚ → Position × Option ExitKind
  | [] => (p, none)
  | c :: rest =>
    if p.status = "open" then
      match monitorStep p c with
      | (p2, some e) => (p2, some e)
      | (p2, none) => monitorRun p2 rest
    else (p, none)

/-!
Interleaving model of the close race for one instrument.  Two Python
threads touch the same position: the monitor thread (one iteration of
`monitor_position` at a tick where the stop-loss or trailing-exit guard
is true, lines 362-384 / 404-412) and the webhook `sell` handler
(lines 266-281).  Both threads hold a reference to the same position
dict; the store holds at most that one entry.  Atomic steps are the
regions between the blocking network calls (the GIL is released during
`execute_market_sell`, which performs several HTTP requests), so another
thread can run while a sell is in flight.
-/

/-- Shared state of the close race: whether the entry for the instrument is
still in `open_positions`, the `status` field of the shared position
dict, the program counter of each thread, and how many market sell orders
have been submitted so far. -/
structure RaceState where
  stored : Bool
  posStatus : String
  monPC : ℕ
  manPC : ℕ
  sells : ℕ
deriving DecidableEq, Repr

/-- Thread identifiers for the close race. -/
inductive Tid where
  | monitor
  | manual
deriving DecidableEq, Repr

/-- One atomic step of the named thread.
Monitor thread (guard for an exit already true at this tick):
pc 0 = evaluate `position["status"] == "open"` (line 362) and the exit
guard — proceed to the sell if open, otherwise exit the loop;
pc 1 = the `execute_market_sell` network call completes (line 380/408),
one more sell order has been submitted;
pc 2 = set `status = "closed"` and `del open_positions[...]`
(lines 381-383 / 409-411), then break.
Manual thread (`sell` handler):
pc 0 = `open_positions.get(currency_pair)` (line 270) — grab the
reference if present, otherwise return the no-open-position error;
pc 1 = the `execute_market_sell` network call completes (line 275);
pc 2 = set `status = "closed"` and `del open_positions[...]`
(lines 278-281).  pc 3 is terminal for both threads. -/
def raceStep (s : RaceState) (t : Tid) : RaceState :=
  match t with
  | .monitor =>
    match s.monPC with
    | 0 => if s.posStatus = "open"
           then { s with monPC := 1 } else { s with monPC := 3 }
    | 1 => { s with sells := s.sells + 1, monPC := 2 }
    | 2 => { s with posStatus := "closed", stored := false, monPC := 3 }
    | _ => s
  | .manual =>
    match s.manPC with
    | 0 => if s.stored
           then { s with manPC := 1 } else { s with manPC := 3 }
    | 1 => { s with sells := s.sells + 1, manPC := 2 }
    | 2 => { s with posStatus := "closed", stored := false, manPC := 3 }
    | _ => s

/-- Run the race under a given interleaving (schedule of thread steps). -/
def raceRun (init : RaceState) (sched : List Tid) : RaceState :=
  sched.foldl raceStep init

/-- Initial race state: one open position tracked in the store, both
threads about to run, no sell submitted yet. -/
def raceInit : RaceState :=
  { stored := true, posStatus := "open", monPC := 0, manPC := 0, sells := 0 }

/-! Concrete sample data used to instantiate the theorems below. -/

/-- A sample ticker as sent by TradingView: `"BTC/USDT"`. -/
def sampleTicker : List Char := ['B', 'T', 'C', '/', 'U', 'S', 'D', 'T']

/-- The same ticker with lowercase base symbol: `"btc/usdt"`. -/
def lowerTicker : List Char := ['b', 't', 'c', '/', 'u', 's', 'd', 't']

/-- Sample market rules: no minimum base amount, minimum quote amount 1,
amount precision 4, price precision 2. -/
def sampleRules : MarketRules := ⟨0, 1, 4, 2⟩

/-- A `get_order` response reporting a filled order at average price 100
with filled amount 0.5. -/
def fillDetails : OrderStatus := ⟨"closed", 100, 1 / 2⟩

/-- A buy environment in which the order fills on the first poll. -/
def fillEnv : BuyEnv := ⟨50, sampleRules, fun _ => fillDetails⟩

/-- A buy environment in which the order never reports `"closed"`. -/
def stallEnv : BuyEnv := ⟨50, sampleRules, fun _ => ⟨"open", 0, 0⟩⟩

/-- A sell environment with amount precision 2 and base balance 3. -/
def clampEnv : SellEnv := ⟨⟨0, 1, 2, 2⟩, 3, false⟩

/-- A sell environment with amount precision 2 and base balance 9.99. -/
def clampEnv2 : SellEnv := ⟨⟨0, 1, 2, 2⟩, 999 / 100, false⟩

/-- A sell environment whose base balance 0.001 is below the truncation
residue of the amount `201/200 = 1.005`, so the balance check aborts. -/
def abortSellEnv : SellEnv := ⟨⟨0, 1, 2, 2⟩, 1 / 1000, false⟩

/-- The store key `"BTC_USDT"` the buy path derives from `sampleTicker`. -/
def dupKey : List Char := upperChars (replSlash sampleTicker)

/-- A position already open for `dupKey` before a second buy arrives. -/
def dupPos0 : Position := ⟨dupKey, 200, 1, 198, 198, "open", 200, false, false⟩

/-- A store holding `dupPos0` under `dupKey`. -/
def dupStore : Store := emptyStore.insert dupKey dupPos0

/-- A stored position with amount `1.005`, used for the close samples. -/
def closePos : Position := buildPosition (replSlash sampleTicker) 100 (201 / 200)

/-! Helper lemmas. -/

/-- A monitor iteration never changes the entry price. -/
theorem monitorStep_entry (p : Position) (c : ℚ) :
    (monitorStep p c).1.entry_price = p.entry_price := by
  unfold monitorStep
  dsimp only
  split_ifs <;> rfl

/-- A monitor iteration sets the peak price to the maximum of the old
peak and the observed price. -/
theorem monitorStep_peak (p : Position) (c : ℚ) :
    (monitorStep p c).1.peak_price = max p.peak_price c := by
  rcases lt_or_le p.peak_price c with h | h
  · rw [max_eq_right h.le]
    unfold monitorStep
    dsimp only
    rw [if_pos h]
    split_ifs <;> rfl
  · rw [max_eq_left h]
    unfold monitorStep
    dsimp only
    rw [if_neg (not_lt.mpr h)]
    split_ifs <;> rfl

/-- Once the breakeven flag is set, a monitor iteration leaves the stop
loss untouched and the flag set. -/
theorem monitorStep_sl_adjusted (p : Position) (c : ℚ)
    (h : p.adjusted_to_breakeven = true) :
    (monitorStep p c).1.current_stop_loss_price = p.current_stop_loss_price ∧
    (monitorStep p c).1.adjusted_to_breakeven = true := by
  unfold monitorStep
  dsimp only
  split_ifs <;> simp_all

/-- In any monitor iteration, either the stop loss and the breakeven
flag are both unchanged, or the flag was clear, the stop loss is now the
entry price and the flag is now set. -/
theorem monitorStep_sl_cases (p : Position) (c : ℚ) :
    ((monitorStep p c).1.current_stop_loss_price = p.current_stop_loss_price ∧
     (monitorStep p c).1.adjusted_to_breakeven = p.adjusted_to_breakeven) ∨
    (p.adjusted_to_breakeven = false ∧
     (monitorStep p c).1.current_stop_loss_price = p.entry_price ∧
     (monitorStep p c).1.adjusted_to_breakeven = true) := by
  unfold monitorStep
  dsimp only
  split_ifs <;> simp_all

/-- A monitor iteration never lowers a stop loss that sits at or below
the entry price. -/
theorem monitorStep_sl_mono (p : Position) (c : ℚ)
    (h : p.current_stop_loss_price ≤ p.entry_price) :
    p.current_stop_loss_price ≤ (monitorStep p c).1.current_stop_loss_price ∧
    (monitorStep p c).1.current_stop_loss_price ≤
      (monitorStep p c).1.entry_price := by
  unfold monitorStep
  dsimp only
  split_ifs <;> simp_all

/-- Whenever the observed price is at or below the current stop loss,
the stop-loss branch fires — before any trailing logic is reached. -/
theorem monitorStep_stopLoss_first (p : Position) (c : ℚ)
    (h : c ≤ p.current_stop_loss_price) :
    (monitorStep p c).2 = some ExitKind.stopLoss := by
  unfold monitorStep
  dsimp only
  split_ifs <;> simp_all

/-- Across a whole monitor run with the breakeven flag already set, the
stop loss never changes. -/
theorem monitorRun_sl_adjusted (prices : List ℚ) (p : Position)
    (h : p.adjusted_to_breakeven = true) :
    (monitorRun p prices).1.current_stop_loss_price =
      p.current_stop_loss_price := by
  induction prices generalizing p with
  | nil => rfl
  | cons c rest ih =>
    simp only [monitorRun]
    split_ifs with hs
    · rcases hstep : monitorStep p c with ⟨p2, e⟩
      have h2 := monitorStep_sl_adjusted p c h
      rw [hstep] at h2
      rcases e with _ | e
      · simpa [ih p2 h2.2] using h2.1
      · simpa using h2.1
    · rfl

/-- A monitor run never changes the entry price. -/
theorem monitorRun_entry (prices : List ℚ) (p : Position) :
    (monitorRun p prices).1.entry_price = p.entry_price := by
  induction prices generalizing p with
  | nil => rfl
  | cons c rest ih =>
    simp only [monitorRun]
    split_ifs with hs
    · rcases hstep : monitorStep p c with ⟨p2, e⟩
      have h2 := monitorStep_entry p c
      rw [hstep] at h2
      rcases e with _ | e
      · simpa [ih p2] using h2
      · simpa using h2
    · rfl

/-- The peak price never decreases over a monitor run. -/
theorem monitorRun_peak_mono (prices : List ℚ) (p : Position) :
    p.peak_price ≤ (monitorRun p prices).1.peak_price := by
  induction prices generalizing p with
  | nil => exact le_refl _
  | cons c rest ih =>
    simp only [monitorRun]
    split_ifs with hs
    · rcases hstep : monitorStep p c with ⟨p2, e⟩
      have h2 := monitorStep_peak p c
      rw [hstep] at h2
      have hle : p.peak_price ≤ p2.peak_price := by
        simp only at h2
        rw [h2]
        exact le_max_left _ _
      rcases e with _ | e
      · exact hle.trans (ih p2)
      · simpa using hle
    · exact le_refl _

/-- The fill poll reports at most `i + fuel` polls when started at
attempt index `i` with `fuel` attempts of budget. -/
theorem pollOrderAux_le (s : ℕ → OrderStatus) (i fuel : ℕ)
    (r : OrderStatus × ℕ) (h : pollOrderAux s i fuel = some r) :
    r.2 ≤ i + fuel := by
  induction fuel generalizing i with
  | zero => simp [pollOrderAux] at h
  | succ k ih =>
    rw [pollOrderAux] at h
    split_ifs at h with hc
    · cases h
      omega
    · have := ih (i + 1) h
      omega

/-- If no poll in the budget window reports `"closed"`, the fill poll
exhausts its budget and returns `none`. -/
theorem pollOrderAux_none (s : ℕ → OrderStatus) (i fuel : ℕ)
    (h : ∀ j, i ≤ j → j < i + fuel → (s j).status ≠ "closed") :
    pollOrderAux s i fuel = none := by
  induction fuel generalizing i with
  | zero => rfl
  | succ k ih =>
    rw [pollOrderAux]
    rw [if_neg (h i (le_refl i) (by omega))]
    exact ih (i + 1) (fun j h1 h2 => h j (by omega) (by omega))

/-- Truncation toward zero at `p` decimal places of a nonnegative value
loses a nonnegative residue of less than one precision unit. -/
theorem quantizeDown_residue (a : ℚ) (p : ℕ) (ha : 0 ≤ a) :
    0 ≤ a - quantizeDown a p ∧ a - quantizeDown a p < 1 / 10 ^ p := by
  have hp : (0 : ℚ) < 10 ^ p := by positivity
  have h0 : (0 : ℚ) ≤ a * 10 ^ p := by positivity
  unfold quantizeDown truncInt
  rw [if_pos h0]
  constructor
  · rw [sub_nonneg, div_le_iff₀ hp]
    exact Int.floor_le _
  · have hlt : a * 10 ^ p < (⌊a * 10 ^ p⌋ : ℚ) + 1 := Int.lt_floor_add_one _
    rw [sub_lt_iff_lt_add, div_add_div_same, lt_div_iff₀ hp]
    linarith

/-- `Char.ofNat` of a valid codepoint decodes back to that codepoint. -/
theorem toNat_ofNat_valid {n : ℕ} (h : n.isValidChar) :
    (Char.ofNat n).toNat = n := by
  rw [Char.ofNat, dif_pos h]
  rfl

/-- Uppercasing an ASCII lowercase letter shifts its codepoint down 32. -/
theorem toUpper_toNat_of_lower {c : Char} (h1 : 97 ≤ c.toNat)
    (h2 : c.toNat ≤ 122) : (Char.toUpper c).toNat = c.toNat - 32 := by
  rw [Char.toUpper]
  rw [if_pos ⟨h1, h2⟩]
  exact toNat_ofNat_valid (Or.inl (by omega))

/-- Uppercasing an ASCII lowercase letter changes it. -/
theorem toUpper_ne_of_lower {c : Char} (h1 : 97 ≤ c.toNat)
    (h2 : c.toNat ≤ 122) : Char.toUpper c ≠ c := by
  intro he
  have hn := congrArg Char.toNat he
  rw [toUpper_toNat_of_lower h1 h2] at hn
  omega

/-- Mapping a function over a list that moves one of its members yields
a different list. -/
theorem map_ne_of_mem {α : Type} {f : α → α} {l : List α} {c : α}
    (hc : c ∈ l) (hf : f c ≠ c) : l.map f ≠ l := by
  intro he
  induction l with
  | nil => simp at hc
  | cons a rest ih =>
    simp only [List.map_cons, List.cons.injEq] at he
    rcases List.mem_cons.mp hc with h | h
    · rw [h] at hf
      exact hf he.1
    · exact ih h he.2

/-- Exhaustive description of a `buy` call: either it fails before
submitting the order (no store change, no monitor, no polls), or the
order is submitted and the poll either confirms the fill — building and
storing the position — or times out. -/
theorem buy_cases (t : List Char) (price : Option ℚ) (env : BuyEnv)
    (store : Store) :
    ((buy t price env store).orderSubmitted = false ∧
     (buy t price env store).store = store ∧
     (buy t price env store).monitorSpawned = false ∧
     (∀ d pos, (buy t price env store).outcome ≠ .filled d pos) ∧
     (buy t price env store).outcome ≠ .notFilledInTime ∧
     (buy t price env store).pollCount = 0) ∨
    (∃ d n, pollOrderAux env.order_statuses 0 5 = some (d, n) ∧
      buy t price env store =
        ⟨.filled d (buildPosition (upperChars (replSlash t))
            d.avg_deal_price d.filled_amount), true, n, n - 1, true,
          store.insert (upperChars (replSlash t))
            (buildPosition (upperChars (replSlash t))
              d.avg_deal_price d.filled_amount)⟩) ∨
    (pollOrderAux env.order_statuses 0 5 = none ∧
      buy t price env store = ⟨.notFilledInTime, true, 5, 5, false, store⟩) := by
  by_cases h0 : env.usdt_balance ≤ 0
  · exact Or.inl (by simp [buy, h0])
  rcases price with _ | pr
  · exact Or.inl (by simp [buy, h0])
  by_cases h1 : pr ≤ 0
  · exact Or.inl (by simp [buy, h0, h1])
  by_cases h2 : env.usdt_balance < env.rules.min_quote_amount
  · exact Or.inl (by simp [buy, h0, h1, h2])
  rcases hpoll : pollOrderAux env.order_statuses 0 5 with _ | ⟨d, n⟩
  · exact Or.inr (Or.inr ⟨rfl, by simp [buy, h0, h1, h2, hpoll]⟩)
  · exact Or.inr (Or.inl ⟨d, n, rfl, by simp [buy, h0, h1, h2, hpoll]⟩)

/-! Claim theorems. -/

/-- Claim C1: the code violates the claim.  Under the interleaving in
which the manual `sell` handler looks up the position (line 270) while
the `execute_market_sell` network call of the monitor (line 380/408) is still
in flight, both actors submit a market sell — two Sell submissions, not
the claimed "exactly one".  Under the fully sequential schedule the
monitor does observe `status == "closed"` (line 362) and no-ops, giving
one sell, so the duplicate requires exactly this race. -/
theorem close_race_two_sells :
    (raceRun raceInit [Tid.monitor, Tid.manual, Tid.monitor, Tid.manual]).sells = 2 ∧
    (raceRun raceInit [Tid.manual, Tid.manual, Tid.manual, Tid.monitor]).sells = 1 := by
  with_unfolding_all decide

/-- Claim C2: the code violates the claim.  With a position for
`"BTC_USDT"` already in the store, a second buy for the same instrument
does not fail with `PositionAlreadyOpen`: the order is submitted, a new
position is created and it silently overwrites the stored one (line 242
has no duplicate guard). -/
theorem duplicate_buy_overwrites :
    dupStore dupKey = some dupPos0 ∧
    (buy sampleTicker (some 100) fillEnv dupStore).outcome =
      .filled fillDetails (buildPosition dupKey 100 (1 / 2)) ∧
    (buy sampleTicker (some 100) fillEnv dupStore).orderSubmitted = true ∧
    (buy sampleTicker (some 100) fillEnv dupStore).store dupKey =
      some (buildPosition dupKey 100 (1 / 2)) ∧
    buildPosition dupKey 100 (1 / 2) ≠ dupPos0 := by
  with_unfolding_all decide

/-- Claim C3 counterexample: with amount precision 2 (one precision unit
is `0.01`), quantity 10 and live balance 3, the shortfall of the rounded
quantity over the balance is 7 — far more than one precision unit — yet
`execute_market_sell` does not abort: the condition at line 317 compares
the balance against the truncation residue `amount - amount_decimal`
(here 0), so it clamps to the balance and submits a sell for 3. -/
theorem sell_clamp_counterexample :
    (1 : ℚ) / 10 ^ clampEnv.rules.amount_precision <
      quantizeDown 10 clampEnv.rules.amount_precision - clampEnv.base_balance ∧
    execute_market_sell clampEnv 10 = .submitted 3 := by
  with_unfolding_all decide

/-- Claim C3 (amended): the quantity is truncated to the base precision
of the instrument; for a nonnegative quantity the truncation residue is
nonnegative and below one precision unit; when the truncated quantity
exceeds the live balance the sell is clamped down to the balance
whenever the balance is at least that residue, and aborts without
submitting only when the balance is below the residue; when the balance
covers the truncated quantity the truncated quantity is submitted. -/
theorem sell_clamp_amended (env : SellEnv) (amount : ℚ) :
    (0 ≤ amount →
      0 ≤ amount - quantizeDown amount env.rules.amount_precision ∧
      amount - quantizeDown amount env.rules.amount_precision <
        1 / 10 ^ env.rules.amount_precision) ∧
    (env.base_balance < quantizeDown amount env.rules.amount_precision →
      amount - quantizeDown amount env.rules.amount_precision ≤
        env.base_balance →
      env.apiError = false →
      execute_market_sell env amount = .submitted env.base_balance) ∧
    (env.base_balance < quantizeDown amount env.rules.amount_precision →
      env.base_balance < amount - quantizeDown amount env.rules.amount_precision →
      execute_market_sell env amount = .abortedInsufficient) ∧
    (quantizeDown amount env.rules.amount_precision ≤ env.base_balance →
      env.apiError = false →
      execute_market_sell env amount =
        .submitted (quantizeDown amount env.rules.amount_precision)) := by
  refine ⟨fun ha => quantizeDown_residue amount _ ha, ?_, ?_, ?_⟩
  · intro hlt hres hapi
    simp [execute_market_sell, hlt, hres, hapi]
  · intro hlt hres
    simp [execute_market_sell, hlt, not_le.mpr hres]
  · intro hge hapi
    simp [execute_market_sell, not_lt.mpr hge, hapi]

/-- Witness for the amended claim C3: amount `10.005` at precision 2
truncates to `10`; balance `9.99` is below `10` but at least the residue
`0.005`, so the sell is clamped to `9.99` and submitted. -/
theorem sell_clamp_amended_witness :
    clampEnv2.base_balance <
      quantizeDown (2001 / 200) clampEnv2.rules.amount_precision ∧
    (2001 : ℚ) / 200 - quantizeDown (2001 / 200) clampEnv2.rules.amount_precision ≤
      clampEnv2.base_balance ∧
    clampEnv2.apiError = false ∧
    execute_market_sell clampEnv2 (2001 / 200) =
      .submitted clampEnv2.base_balance :=
  ⟨by with_unfolding_all decide, by with_unfolding_all decide, rfl,
    (sell_clamp_amended clampEnv2 (2001 / 200)).2.1 (by with_unfolding_all decide) (by with_unfolding_all decide) rfl⟩

/-- Claim C4: whenever a buy reports a filled outcome, the created
position has entry price equal to the reported average fill price of the order, its
amount is the reported filled amount, and its current stop loss is
exactly `entry_price * (1 - INITIAL_STOP_LOSS_PCT)`. -/
theorem buy_fill_position_fields (t : List Char) (price : Option ℚ)
    (env : BuyEnv) (store : Store) (d : OrderStatus) (pos : Position)
    (hbuy : (buy t price env store).outcome = .filled d pos) :
    pos.entry_price = d.avg_deal_price ∧
    pos.amount = d.filled_amount ∧
    pos.current_stop_loss_price =
      pos.entry_price * (1 - INITIAL_STOP_LOSS_PCT) := by
  rcases buy_cases t price env store with h | ⟨d2, n, hpoll, heq⟩ | ⟨hpoll, heq⟩
  · exact absurd hbuy (h.2.2.2.1 d pos)
  · rw [heq] at hbuy
    simp only [BuyOutcome.filled.injEq] at hbuy
    obtain ⟨rfl, rfl⟩ := hbuy
    exact ⟨rfl, rfl, rfl⟩
  · rw [heq] at hbuy
    simp at hbuy

/-- Witness for claim C4 at a concrete successful buy. -/
theorem buy_fill_position_fields_witness :
    (buy sampleTicker (some 100) fillEnv emptyStore).outcome =
      .filled fillDetails (buildPosition dupKey 100 (1 / 2)) ∧
    ((buildPosition dupKey 100 (1 / 2)).entry_price =
        fillDetails.avg_deal_price ∧
      (buildPosition dupKey 100 (1 / 2)).amount = fillDetails.filled_amount ∧
      (buildPosition dupKey 100 (1 / 2)).current_stop_loss_price =
        (buildPosition dupKey 100 (1 / 2)).entry_price *
          (1 - INITIAL_STOP_LOSS_PCT)) :=
  ⟨by with_unfolding_all decide,
    buy_fill_position_fields sampleTicker (some 100) fillEnv emptyStore
      fillDetails (buildPosition dupKey 100 (1 / 2)) (by with_unfolding_all decide)⟩

/-- Claim C5: the stop loss is written at most once after creation — when
the breakeven flag is still clear it can only be raised to the entry
price (setting the flag); once the flag is set, no iteration, and hence
no whole run, ever changes the stop loss again; and an iteration never
lowers a stop loss sitting at or below the entry price. -/
theorem stop_loss_write_once :
    (∀ (p : Position) (c : ℚ), p.adjusted_to_breakeven = true →
      (monitorStep p c).1.current_stop_loss_price = p.current_stop_loss_price ∧
      (monitorStep p c).1.adjusted_to_breakeven = true) ∧
    (∀ (p : Position) (c : ℚ),
      (monitorStep p c).1.current_stop_loss_price ≠ p.current_stop_loss_price →
      p.adjusted_to_breakeven = false ∧
      (monitorStep p c).1.current_stop_loss_price = p.entry_price ∧
      (monitorStep p c).1.adjusted_to_breakeven = true) ∧
    (∀ (p : Position) (c : ℚ), p.current_stop_loss_price ≤ p.entry_price →
      p.current_stop_loss_price ≤ (monitorStep p c).1.current_stop_loss_price) ∧
    (∀ (p : Position) (prices : List ℚ), p.adjusted_to_breakeven = true →
      (monitorRun p prices).1.current_stop_loss_price =
        p.current_stop_loss_price) := by
  refine ⟨fun p c h => monitorStep_sl_adjusted p c h, ?_,
    fun p c h => (monitorStep_sl_mono p c h).1,
    fun p prices h => monitorRun_sl_adjusted prices p h⟩
  intro p c hne
  rcases monitorStep_sl_cases p c with h | h
  · exact absurd h.1 hne
  · exact h

/-- Witness for claim C5: a position with the breakeven flag set keeps
its stop loss across a run. -/
theorem stop_loss_write_once_witness :
    (⟨dupKey, 100, 1, 99, 100, "open", 100, false, true⟩ : Position).adjusted_to_breakeven = true ∧
    (monitorRun ⟨dupKey, 100, 1, 99, 100, "open", 100, false, true⟩
        [102, 105]).1.current_stop_loss_price =
      (⟨dupKey, 100, 1, 99, 100, "open", 100, false, true⟩ : Position).current_stop_loss_price :=
  ⟨rfl, stop_loss_write_once.2.2.2 _ [102, 105] rfl⟩

/-- Claim C6: a freshly built position has its peak price equal to its
entry price; each monitor iteration sets the peak to the maximum of the
old peak and the observed price; hence the peak never decreases over a
run, and a position whose peak is at least its entry keeps
`peak_price ≥ entry_price` for the whole run. -/
theorem peak_price_invariant :
    (∀ (cp : List Char) (e a : ℚ),
      (buildPosition cp e a).peak_price = (buildPosition cp e a).entry_price) ∧
    (∀ (p : Position) (c : ℚ),
      (monitorStep p c).1.peak_price = max p.peak_price c) ∧
    (∀ (p : Position) (prices : List ℚ),
      p.peak_price ≤ (monitorRun p prices).1.peak_price) ∧
    (∀ (p : Position) (prices : List ℚ), p.entry_price ≤ p.peak_price →
      (monitorRun p prices).1.entry_price ≤
        (monitorRun p prices).1.peak_price) := by
  refine ⟨fun cp e a => rfl, fun p c => monitorStep_peak p c,
    fun p prices => monitorRun_peak_mono prices p, ?_⟩
  intro p prices h
  rw [monitorRun_entry]
  exact h.trans (monitorRun_peak_mono prices p)

/-- Witness for claim C6 on a concrete run. -/
theorem peak_price_invariant_witness :
    (buildPosition dupKey 100 1).entry_price ≤
      (buildPosition dupKey 100 1).peak_price ∧
    (monitorRun (buildPosition dupKey 100 1) [101, 99]).1.entry_price ≤
      (monitorRun (buildPosition dupKey 100 1) [101, 99]).1.peak_price :=
  ⟨by with_unfolding_all decide, peak_price_invariant.2.2.2 _ [101, 99] (by with_unfolding_all decide)⟩

/-- Claim C7: whenever the observed price is at or below the stop loss,
the stop-loss branch fires first (stop-loss takes precedence over the
trailing logic in the same tick); and in the concrete scenario — entry
100, prices 102, 105, 104.5, then 102.5 — breakeven fires at 102 (stop
moves from 99 to 100), trailing activates at 105 (peak 105, stop still
100), nothing fires at 104.5, and at 102.5 the trailing-exit branch
fires with retracement `50/21 ≈ 2.38% ≥ 2%` while the stop-loss branch
does not (`102.5 > 100`). -/
theorem monitor_order_scenario :
    (∀ (p : Position) (c : ℚ), c ≤ p.current_stop_loss_price →
      (monitorStep p c).2 = some ExitKind.stopLoss) ∧
    (let p0 := buildPosition dupKey 100 1
     let s1 := monitorStep p0 102
     let s2 := monitorStep s1.1 105
     let s3 := monitorStep s2.1 (209 / 2)
     let s4 := monitorStep s3.1 (205 / 2)
     p0.current_stop_loss_price = 99 ∧
     s1.2 = none ∧ s1.1.adjusted_to_breakeven = true ∧
     s1.1.current_stop_loss_price = 100 ∧ s1.1.trail_started = false ∧
     s2.2 = none ∧ s2.1.trail_started = true ∧ s2.1.peak_price = 105 ∧
     s2.1.current_stop_loss_price = 100 ∧
     s3.2 = none ∧
     s4.2 = some ExitKind.trailingExit ∧
     ¬((205 : ℚ) / 2 ≤ s3.1.current_stop_loss_price) ∧
     (s3.1.peak_price - 205 / 2) / s3.1.peak_price * 100 = 50 / 21 ∧
     TRAILING_PROFIT_EXIT_PCT ≤ 50 / 21 ∧
     monitorRun p0 [102, 105, 209 / 2, 205 / 2] =
       (s4.1, some ExitKind.trailingExit)) :=
  ⟨fun p c h => monitorStep_stopLoss_first p c h, by with_unfolding_all decide⟩

/-- Witness for claim C7: the stop-loss branch fires when price meets
the stop exactly. -/
theorem monitor_order_scenario_witness :
    (99 : ℚ) ≤ (buildPosition dupKey 100 1).current_stop_loss_price ∧
    (monitorStep (buildPosition dupKey 100 1) 99).2 = some ExitKind.stopLoss :=
  ⟨by with_unfolding_all decide, monitor_order_scenario.1 _ 99 (by with_unfolding_all decide)⟩

/-- Claim C8: once the market buy order is submitted, the fill poll runs
at most 5 times, with one unit of sleep per unsuccessful attempt; if no
poll within that budget reports `"closed"`, the buy fails with the
fill-timeout outcome, no position is stored and no monitor is spawned. -/
theorem fill_timeout_bounded_poll (t : List Char) (price : Option ℚ)
    (env : BuyEnv) (store : Store)
    (hsub : (buy t price env store).orderSubmitted = true) :
    (buy t price env store).pollCount ≤ 5 ∧
    (buy t price env store).sleepUnits ≤ 5 ∧
    ((∀ i, i < 5 → (env.order_statuses i).status ≠ "closed") →
      (buy t price env store).outcome = .notFilledInTime ∧
      (buy t price env store).monitorSpawned = false ∧
      (buy t price env store).store = store) := by
  rcases buy_cases t price env store with h | ⟨d, n, hpoll, heq⟩ | ⟨hpoll, heq⟩
  · rw [h.1] at hsub
    exact absurd hsub (by simp)
  · rw [heq]
    have hn := pollOrderAux_le env.order_statuses 0 5 (d, n) hpoll
    refine ⟨by simpa using hn, ?_, ?_⟩
    · simp only
      omega
    · intro hfail
      have hnone : pollOrderAux env.order_statuses 0 5 = none :=
        pollOrderAux_none env.order_statuses 0 5
          (fun j h1 h2 => hfail j (by omega))
      rw [hnone] at hpoll
      cases hpoll
  · rw [heq]
    exact ⟨by simp, by simp, fun _ => ⟨rfl, rfl, rfl⟩⟩

/-- Witness for claim C8: in an environment where no poll ever reports
`"closed"`, the submitted buy times out, stores nothing and spawns no
monitor. -/
theorem fill_timeout_bounded_poll_witness :
    (buy sampleTicker (some 100) stallEnv emptyStore).orderSubmitted = true ∧
    (buy sampleTicker (some 100) stallEnv emptyStore).pollCount ≤ 5 ∧
    ((buy sampleTicker (some 100) stallEnv emptyStore).outcome =
        .notFilledInTime ∧
      (buy sampleTicker (some 100) stallEnv emptyStore).monitorSpawned = false ∧
      (buy sampleTicker (some 100) stallEnv emptyStore).store = emptyStore) :=
  ⟨by with_unfolding_all decide,
    (fill_timeout_bounded_poll sampleTicker (some 100) stallEnv emptyStore
      (by with_unfolding_all decide)).1,
    (fill_timeout_bounded_poll sampleTicker (some 100) stallEnv emptyStore
      (by with_unfolding_all decide)).2.2 (fun i _ => by simp [stallEnv])⟩

/-- Claim C9: a manual close on an absent instrument fails with the
no-open-position outcome and changes nothing; on a present instrument
the position is removed from the store unconditionally after the sell
attempt, whatever `execute_market_sell` did (submitted, aborted on the
balance check, or swallowed an exchange API error), and no other key is
affected. -/
theorem close_unconditional_removal (t : List Char) (env : SellEnv)
    (store : Store) :
    (store (replSlash t) = none →
      sell t env store = (.noOpenPosition, store)) ∧
    (∀ p, store (replSlash t) = some p →
      (sell t env store).1 = .ok (execute_market_sell env p.amount) ∧
      (sell t env store).2 (replSlash t) = none ∧
      (∀ k, k ≠ replSlash t → (sell t env store).2 k = store k)) := by
  constructor
  · intro h
    simp [sell, h]
  · intro p h
    refine ⟨by simp [sell, h], by simp [sell, h, Store.erase], ?_⟩
    intro k hk
    simp [sell, h, Store.erase, hk]

/-- Witness for claim C9: the sell attempt aborts on the balance check
(balance `0.001` below the residue `0.005` of amount `1.005`), yet the
position is still removed from the store. -/
theorem close_unconditional_removal_witness :
    (emptyStore.insert (replSlash sampleTicker) closePos)
        (replSlash sampleTicker) = some closePos ∧
    (sell sampleTicker abortSellEnv
        (emptyStore.insert (replSlash sampleTicker) closePos)).1 =
      .ok SellSubmit.abortedInsufficient ∧
    (sell sampleTicker abortSellEnv
        (emptyStore.insert (replSlash sampleTicker) closePos)).2
      (replSlash sampleTicker) = none := by
  have h := (close_unconditional_removal sampleTicker abortSellEnv
    (emptyStore.insert (replSlash sampleTicker) closePos)).2 closePos (by with_unfolding_all decide)
  refine ⟨by with_unfolding_all decide, ?_, h.2.1⟩
  rw [h.1]
  with_unfolding_all decide

/-- Claim C10: the buy path uppercases the store key (line 144) while
the manual sell path does not (line 267), so after a successful buy from
an empty store with a ticker containing an ASCII lowercase letter, the
position sits under the uppercased key, the non-uppercased key is
vacant, and a manual close with the very same ticker fails with the
no-open-position outcome, leaving the store unchanged. -/
theorem case_mismatch_open_close (t : List Char) (c : Char) (hc : c ∈ t)
    (h1 : 97 ≤ c.toNat) (h2 : c.toNat ≤ 122) (price : Option ℚ)
    (env : BuyEnv) (senv : SellEnv) (d : OrderStatus) (pos : Position)
    (hbuy : (buy t price env emptyStore).outcome = .filled d pos) :
    (buy t price env emptyStore).store (upperChars (replSlash t)) = some pos ∧
    (buy t price env emptyStore).store (replSlash t) = none ∧
    sell t senv ((buy t price env emptyStore).store) =
      (.noOpenPosition, (buy t price env emptyStore).store) := by
  have hslash : c ≠ '/' := by
    intro he
    rw [he] at h1
    exact absurd h1 (by decide)
  have hcmem : c ∈ replSlash t :=
    List.mem_map.mpr ⟨c, hc, by rw [if_neg hslash]⟩
  have hne : upperChars (replSlash t) ≠ replSlash t :=
    map_ne_of_mem hcmem (toUpper_ne_of_lower h1 h2)
  rcases buy_cases t price env emptyStore with h | ⟨d2, n, hpoll, heq⟩ | ⟨hpoll, heq⟩
  · exact absurd hbuy (h.2.2.2.1 d pos)
  · rw [heq] at hbuy ⊢
    simp only [BuyOutcome.filled.injEq] at hbuy
    obtain ⟨rfl, rfl⟩ := hbuy
    have hnone : (emptyStore.insert (upperChars (replSlash t))
        (buildPosition (upperChars (replSlash t)) d2.avg_deal_price
          d2.filled_amount)) (replSlash t) = none := by
      simp [Store.insert, emptyStore, Ne.symm hne]
    refine ⟨by simp [Store.insert], hnone, ?_⟩
    simp [sell, hnone]
  · rw [heq] at hbuy
    simp at hbuy

/-- Witness for claim C10 with the lowercase ticker `"btc/usdt"`. -/
theorem case_mismatch_open_close_witness :
    'b' ∈ lowerTicker ∧ 97 ≤ 'b'.toNat ∧ 'b'.toNat ≤ 122 ∧
    (buy lowerTicker (some 100) fillEnv emptyStore).outcome =
      .filled fillDetails
        (buildPosition (upperChars (replSlash lowerTicker)) 100 (1 / 2)) ∧
    sell lowerTicker clampEnv
        ((buy lowerTicker (some 100) fillEnv emptyStore).store) =
      (.noOpenPosition, (buy lowerTicker (some 100) fillEnv emptyStore).store) :=
  ⟨by with_unfolding_all decide, by with_unfolding_all decide, by with_unfolding_all decide, by with_unfolding_all decide,
    (case_mismatch_open_close lowerTicker 'b' (by with_unfolding_all decide) (by with_unfolding_all decide) (by with_unfolding_all decide)
      (some 100) fillEnv clampEnv fillDetails
      (buildPosition (upperChars (replSlash lowerTicker)) 100 (1 / 2))
      (by with_unfolding_all decide)).2.2⟩

end GateBot
